import Mathlib

/-!
Shallow embedding of the reflex layer (`reflex.py`) over the real numbers.

The Python source is a pure per-tick function `process_reflex` together with
the helpers `_normalize`, `compute_wall_distances`, `_closest_approach` and
`_wall_repulsion`.  Floating point arithmetic is modelled by exact real
arithmetic; every function below mirrors the corresponding Python function
statement by statement.  The single bullet-loop of `process_reflex` is
embedded as a left fold of `threatStep`, whose per-bullet body
(`bulletContribution`) returns `none` exactly where the Python loop
executes `continue`.
-/

noncomputable section

namespace Reflex

/-- Tuning constant `BOT_RADIUS = 16` from reflex.py. -/
def BOT_RADIUS : ℝ := 16

/-- Tuning constant `BULLET_RADIUS = 5` from reflex.py. -/
def BULLET_RADIUS : ℝ := 5

/-- Tuning constant `COLLISION_MARGIN = BOT_RADIUS + BULLET_RADIUS + 8`. -/
def COLLISION_MARGIN : ℝ := BOT_RADIUS + BULLET_RADIUS + 8

/-- Tuning constant `DANGER_TIME_WINDOW = 1.2` seconds. -/
def DANGER_TIME_WINDOW : ℝ := 1.2

/-- Tuning constant `WALL_BUFFER = 38` px. -/
def WALL_BUFFER : ℝ := 38

/-- Tuning constant `WALL_REPULSE_STRENGTH = 1.8`. -/
def WALL_REPULSE_STRENGTH : ℝ := 1.8

/-- Tuning constant `DODGE_BASE_STRENGTH = 3.5`. -/
def DODGE_BASE_STRENGTH : ℝ := 3.5

/-- Tuning constant `INTENT_BLEND = 0.30`. -/
def INTENT_BLEND : ℝ := 0.30

/-- Tuning constant `ARENA_W = 800`. -/
def ARENA_W : ℝ := 800

/-- Tuning constant `ARENA_H = 600`. -/
def ARENA_H : ℝ := 600

/-- The dataclass `BotState` of reflex.py. -/
structure BotState where
  x : ℝ
  y : ℝ
  vx : ℝ
  vy : ℝ
  hp : ℤ
  intent_dx : ℝ
  intent_dy : ℝ
  shoot_intent : Bool
  frame_vx : ℝ
  frame_vy : ℝ

/-- The dataclass `BulletInfo` of reflex.py. -/
structure BulletInfo where
  x : ℝ
  y : ℝ
  vx : ℝ
  vy : ℝ
  owner : String

/-- The dataclass `WallRect` of reflex.py. -/
structure WallRect where
  x : ℝ
  y : ℝ
  w : ℝ
  h : ℝ

/-- Python's `math.hypot x y = sqrt (x² + y²)`. -/
def hypot (x y : ℝ) : ℝ := Real.sqrt (x ^ 2 + y ^ 2)

/-- Function `_normalize(dx, dy)` from reflex.py: unit vector, or `(0,0)` when the
magnitude is below `1e-6`. -/
def _normalize (dx dy : ℝ) : ℝ × ℝ :=
  let mag := hypot dx dy
  if mag < 1e-6 then (0, 0) else (dx / mag, dy / mag)

/-- One wall of the loop body of `compute_wall_distances` from reflex.py:
updates the running `[dist_n, dist_e, dist_s, dist_w]` accumulator
(stored as a 4-tuple `(n, e, s, w)`). -/
def wallDistStep (bot : BotState) (acc : ℝ × ℝ × ℝ × ℝ) (wall : WallRect) : ℝ × ℝ × ℝ × ℝ :=
  let wx1 := wall.x
  let wy1 := wall.y
  let wx2 := wall.x + wall.w
  let wy2 := wall.y + wall.h
  let n := if wy2 ≤ bot.y ∧ wx1 ≤ bot.x ∧ bot.x ≤ wx2 then min acc.1 (bot.y - wy2) else acc.1
  let s := if bot.y ≤ wy1 ∧ wx1 ≤ bot.x ∧ bot.x ≤ wx2 then min acc.2.2.1 (wy1 - bot.y) else acc.2.2.1
  let w := if wx2 ≤ bot.x ∧ wy1 ≤ bot.y ∧ bot.y ≤ wy2 then min acc.2.2.2 (bot.x - wx2) else acc.2.2.2
  let e := if bot.x ≤ wx1 ∧ wy1 ≤ bot.y ∧ bot.y ≤ wy2 then min acc.2.1 (wx1 - bot.x) else acc.2.1
  (n, e, s, w)

/-- Function `compute_wall_distances(bot, walls, arena_w, arena_h)` from reflex.py:
returns `[dist_N, dist_E, dist_S, dist_W]` to the nearest wall surface. -/
def compute_wall_distances (bot : BotState) (walls : List WallRect) (arena_w arena_h : ℝ) :
    List ℝ :=
  let r := walls.foldl (wallDistStep bot) (bot.y, arena_w - bot.x, arena_h - bot.y, bot.x)
  [r.1, r.2.1, r.2.2.1, r.2.2.2]

/-- Function `_closest_approach(bx, b_y, bvx, bvy, tx, ty)` from reflex.py: returns
`(tca, miss_distance)` for a bullet starting at `(bx, b_y)` with velocity
`(bvx, bvy)` against a stationary target at `(tx, ty)`. -/
def _closest_approach (bx b_y bvx bvy tx ty : ℝ) : ℝ × ℝ :=
  let rx := bx - tx
  let ry := b_y - ty
  let rel_speed_sq := bvx * bvx + bvy * bvy
  if rel_speed_sq < 1e-6 then (0, hypot rx ry)
  else
    let tca := -(rx * bvx + ry * bvy) / rel_speed_sq
    let cx := bx + bvx * tca - tx
    let cy := b_y + bvy * tca - ty
    (tca, hypot cx cy)

/-- The contribution of one arena edge inside `_wall_repulsion`:
`(push_dx * strength, push_dy * strength)` when `dist < WALL_BUFFER`,
zero otherwise. -/
def edgeRepulse (dist push_dx push_dy : ℝ) : ℝ × ℝ :=
  if dist < WALL_BUFFER then
    (push_dx * ((1 - dist / WALL_BUFFER) * WALL_REPULSE_STRENGTH),
     push_dy * ((1 - dist / WALL_BUFFER) * WALL_REPULSE_STRENGTH))
  else (0, 0)

/-- The loop body of the internal-wall part of `_wall_repulsion`. -/
def wallRepulseStep (bot_x bot_y : ℝ) (acc : ℝ × ℝ) (wall : WallRect) : ℝ × ℝ :=
  let closest_x := max wall.x (min (wall.x + wall.w) bot_x)
  let closest_y := max wall.y (min (wall.y + wall.h) bot_y)
  let dist := hypot (bot_x - closest_x) (bot_y - closest_y)
  if dist < WALL_BUFFER ∧ 1e-3 < dist then
    let strength := (1 - dist / WALL_BUFFER) * WALL_REPULSE_STRENGTH
    let n := _normalize (bot_x - closest_x) (bot_y - closest_y)
    (acc.1 + n.1 * strength, acc.2 + n.2 * strength)
  else acc

/-- Function `_wall_repulsion(bot_x, bot_y, walls, arena_w, arena_h)` from reflex.py:
soft repulsion from the four arena edges plus every internal wall within
`WALL_BUFFER`. -/
def _wall_repulsion (bot_x bot_y : ℝ) (walls : List WallRect) (arena_w arena_h : ℝ) : ℝ × ℝ :=
  let e1 := edgeRepulse bot_x 1 0
  let e2 := edgeRepulse (arena_w - bot_x) (-1) 0
  let e3 := edgeRepulse bot_y 0 1
  let e4 := edgeRepulse (arena_h - bot_y) 0 (-1)
  walls.foldl (wallRepulseStep bot_x bot_y)
    (e1.1 + e2.1 + e3.1 + e4.1, e1.2 + e2.2 + e3.2 + e4.2)

/-- Step 2 of the bullet loop of `process_reflex`, up to (and excluding) the
wall-probe flip: the two perpendiculars to the bullet's travel direction and
the side choice made by projecting the vector from the bullet's position at
`max tca 0` to the bot onto `perp_a`. -/
def chosenPerpPreFlip (bot : BotState) (b : BulletInfo) (tca : ℝ) : ℝ × ℝ :=
  let t := _normalize b.vx b.vy
  let perp_a : ℝ × ℝ := (t.2, -t.1)
  let perp_b : ℝ × ℝ := (-t.2, t.1)
  let bullet_at_tca_x := b.x + b.vx * max tca 0
  let bullet_at_tca_y := b.y + b.vy * max tca 0
  let dot_a := perp_a.1 * (bot.x - bullet_at_tca_x) + perp_a.2 * (bot.y - bullet_at_tca_y)
  if 0 ≤ dot_a then perp_a else perp_b

/-- The body of the bullet loop of `process_reflex` (steps 1 and 2):
`none` where the Python loop executes `continue`, otherwise
`some (chosen_px, chosen_py, urgency)`. -/
def bulletContribution (bot : BotState) (walls : List WallRect) (arena_w arena_h : ℝ)
    (b : BulletInfo) : Option (ℝ × ℝ × ℝ) :=
  let ca := _closest_approach b.x b.y b.vx b.vy bot.x bot.y
  let tca := ca.1
  let miss_dist := ca.2
  if tca < -0.05 ∨ DANGER_TIME_WINDOW < tca then none
  else if COLLISION_MARGIN * 2.5 ≤ miss_dist then none
  else
    let chosen0 := chosenPerpPreFlip bot b tca
    let wr := _wall_repulsion (bot.x + chosen0.1 * 30) (bot.y + chosen0.2 * 30)
      walls arena_w arena_h
    let probe_wall_dot := wr.1 * chosen0.1 + wr.2 * chosen0.2
    let chosen := if probe_wall_dot < -0.5 then (-chosen0.1, -chosen0.2) else chosen0
    let urgency := DODGE_BASE_STRENGTH / max tca 0.03 *
      (0.4 + 0.6 * max 0 (1 - miss_dist / COLLISION_MARGIN))
    some (chosen.1, chosen.2, urgency)

/-- The accumulator update of the bullet loop of `process_reflex`:
`acc = (dodge_x, dodge_y, threat_count, max_urgency)`. -/
def threatStep (bot : BotState) (walls : List WallRect) (arena_w arena_h : ℝ)
    (acc : ℝ × ℝ × ℕ × ℝ) (b : BulletInfo) : ℝ × ℝ × ℕ × ℝ :=
  match bulletContribution bot walls arena_w arena_h b with
  | none => acc
  | some c => (acc.1 + c.1 * c.2.2, acc.2.1 + c.2.1 * c.2.2, acc.2.2.1 + 1, max acc.2.2.2 c.2.2)

/-- The full bullet loop of `process_reflex`: fold of `threatStep` starting
from `(0, 0, 0, 0)`. -/
def threatAccum (bot : BotState) (player_bullets : List BulletInfo) (walls : List WallRect)
    (arena_w arena_h : ℝ) : ℝ × ℝ × ℕ × ℝ :=
  player_bullets.foldl (threatStep bot walls arena_w arena_h) (0, 0, 0, 0)

/-- Step 3 of `process_reflex`: blend the accumulated dodge vector with the
LLM intent (the direction before wall repulsion is added). -/
def preRepulsionDir (bot : BotState) (player_bullets : List BulletInfo) (walls : List WallRect)
    (arena_w arena_h : ℝ) : ℝ × ℝ :=
  let A := threatAccum bot player_bullets walls arena_w arena_h
  if 0 < A.2.2.1 then
    let nd := _normalize A.1 A.2.1
    let urgency_scale := min (A.2.2.2 / DODGE_BASE_STRENGTH) 1
    let blend := INTENT_BLEND * (1 - urgency_scale * 0.7)
    (nd.1 * (1 - blend) + bot.intent_dx * blend,
     nd.2 * (1 - blend) + bot.intent_dy * blend)
  else (bot.intent_dx, bot.intent_dy)

/-- Steps 4-6 of `process_reflex`: add wall repulsion at half strength, apply
the hard perimeter clamps, and normalize. -/
def outputDir (bot : BotState) (walls : List WallRect) (arena_w arena_h : ℝ) (d : ℝ × ℝ) :
    ℝ × ℝ :=
  let wr := _wall_repulsion bot.x bot.y walls arena_w arena_h
  let dx1 := d.1 + wr.1 * 0.5
  let dy1 := d.2 + wr.2 * 0.5
  let dx2 := if bot.x < WALL_BUFFER ∧ dx1 < 0 then 0 else dx1
  let dx3 := if arena_w - WALL_BUFFER < bot.x ∧ 0 < dx2 then 0 else dx2
  let dy2 := if bot.y < WALL_BUFFER ∧ dy1 < 0 then 0 else dy1
  let dy3 := if arena_h - WALL_BUFFER < bot.y ∧ 0 < dy2 then 0 else dy2
  _normalize dx3 dy3

/-- Function `process_reflex(bot, player_bullets, walls, bot_speed, arena_w, arena_h, dt)`
from reflex.py: the per-frame decision `(vx, vy, should_shoot)`.  `dt` is
accepted and unused, exactly as in the source. -/
def process_reflex (bot : BotState) (player_bullets : List BulletInfo) (walls : List WallRect)
    (bot_speed : ℝ) (arena_w arena_h : ℝ) (dt : ℝ) : ℝ × ℝ × Bool :=
  let nd := outputDir bot walls arena_w arena_h
    (preRepulsionDir bot player_bullets walls arena_w arena_h)
  (nd.1 * bot_speed, nd.2 * bot_speed, bot.shoot_intent)

/-- Sample agent at the arena centre with eastward intent (concrete input for
witnesses). -/
def botC : BotState := ⟨400, 300, 0, 0, 100, 1, 0, false, 0, 0⟩

/-- Sample stationary bullet far from `botC`. -/
def bFar : BulletInfo := ⟨0, 0, 0, 0, "player"⟩

/-- Sample bullet heading straight at `botC` from the west, closest approach in
one second. -/
def bThreat : BulletInfo := ⟨300, 300, 100, 0, "player"⟩

/-- Sample agent halfway inside the west wall buffer with eastward intent. -/
def botWestE : BotState := ⟨19, 300, 0, 0, 100, 1, 0, false, 0, 0⟩

/-- Sample agent halfway inside the west wall buffer with westward intent. -/
def botWestW : BotState := ⟨19, 300, 0, 0, 100, -1, 0, false, 0, 0⟩

/-- Sample obstacle north of `botC` and horizontally overlapping it. -/
def wallN : WallRect := ⟨350, 100, 100, 50⟩

end Reflex

namespace Reflex

theorem hypot_nonneg (x y : ℝ) : 0 ≤ hypot x y := Real.sqrt_nonneg _

theorem sq_hypot (x y : ℝ) : hypot x y ^ 2 = x ^ 2 + y ^ 2 :=
  Real.sq_sqrt (by positivity)

theorem hypot_eq_of_sq {x y c : ℝ} (hc : 0 ≤ c) (h : x ^ 2 + y ^ 2 = c ^ 2) :
    hypot x y = c := by
  rw [hypot, h, Real.sqrt_sq hc]

theorem normalize_of_lt {dx dy : ℝ} (h : hypot dx dy < 1e-6) :
    _normalize dx dy = (0, 0) := by
  rw [_normalize, if_pos h]

theorem normalize_of_ge {dx dy : ℝ} (h : 1e-6 ≤ hypot dx dy) :
    _normalize dx dy = (dx / hypot dx dy, dy / hypot dx dy) := by
  rw [_normalize, if_neg (not_lt.mpr h)]

theorem bulletContribution_eq_none_iff (bot : BotState) (walls : List WallRect)
    (arena_w arena_h : ℝ) (b : BulletInfo) :
    bulletContribution bot walls arena_w arena_h b = none ↔
      ((_closest_approach b.x b.y b.vx b.vy bot.x bot.y).1 < -0.05 ∨
       DANGER_TIME_WINDOW < (_closest_approach b.x b.y b.vx b.vy bot.x bot.y).1 ∨
       COLLISION_MARGIN * 2.5 ≤ (_closest_approach b.x b.y b.vx b.vy bot.x bot.y).2) := by
  rw [bulletContribution]
  split_ifs with h1 h2
  · simpa using h1.imp_right Or.inl
  · simpa using Or.inr (Or.inr h2)
  · push_neg at h1 h2
    constructor
    · intro h
      simp at h
    · rintro (h | h | h)
      · exact absurd h (not_lt.mpr h1.1)
      · exact absurd h (not_lt.mpr h1.2)
      · exact absurd h (not_le.mpr h2)

/-- Claim C7: the boolean returned by `process_reflex` is exactly the agent's
strategic fire intent, for every input — the reflex layer never changes the
fire decision. -/
theorem c7_fire_passthrough (bot : BotState) (player_bullets : List BulletInfo)
    (walls : List WallRect) (bot_speed arena_w arena_h dt : ℝ) :
    (process_reflex bot player_bullets walls bot_speed arena_w arena_h dt).2.2 =
      bot.shoot_intent := rfl

/-- Claim C1: a bullet is counted as a genuine threat (its contribution is
`some`, and the threat count is incremented) iff its time of closest approach
lies in `[-0.05, DANGER_TIME_WINDOW]` and its miss distance is strictly less
than `COLLISION_MARGIN * 2.5`; a bullet failing either condition leaves the
whole loop accumulator unchanged. -/
theorem c1_threat_window (bot : BotState) (walls : List WallRect) (arena_w arena_h : ℝ)
    (b : BulletInfo) (acc : ℝ × ℝ × ℕ × ℝ) :
    ((bulletContribution bot walls arena_w arena_h b).isSome ↔
      (-0.05 ≤ (_closest_approach b.x b.y b.vx b.vy bot.x bot.y).1 ∧
       (_closest_approach b.x b.y b.vx b.vy bot.x bot.y).1 ≤ DANGER_TIME_WINDOW ∧
       (_closest_approach b.x b.y b.vx b.vy bot.x bot.y).2 < COLLISION_MARGIN * 2.5)) ∧
    (¬(-0.05 ≤ (_closest_approach b.x b.y b.vx b.vy bot.x bot.y).1 ∧
       (_closest_approach b.x b.y b.vx b.vy bot.x bot.y).1 ≤ DANGER_TIME_WINDOW ∧
       (_closest_approach b.x b.y b.vx b.vy bot.x bot.y).2 < COLLISION_MARGIN * 2.5) →
      threatStep bot walls arena_w arena_h acc b = acc) ∧
    ((bulletContribution bot walls arena_w arena_h b).isSome →
      (threatStep bot walls arena_w arena_h acc b).2.2.1 = acc.2.2.1 + 1) := by
  have hiff := bulletContribution_eq_none_iff bot walls arena_w arena_h b
  constructor
  · constructor
    · intro hs
      have hnn : ¬(bulletContribution bot walls arena_w arena_h b = none) := by
        intro h0
        rw [h0] at hs
        simp at hs
      rw [hiff] at hnn
      push_neg at hnn
      exact hnn
    · intro hconj
      by_contra hns
      rw [Option.not_isSome_iff_eq_none, hiff] at hns
      rcases hns with h | h | h
      · exact absurd h (not_lt.mpr hconj.1)
      · exact absurd h (not_lt.mpr hconj.2.1)
      · exact absurd h (not_le.mpr hconj.2.2)
  constructor
  · intro h
    have hnone : bulletContribution bot walls arena_w arena_h b = none := by
      rw [hiff]
      by_contra hc
      push_neg at hc
      exact h hc
    rw [threatStep, hnone]
  · intro h
    obtain ⟨c, hc⟩ := Option.isSome_iff_exists.mp h
    rw [threatStep, hc]

/-- Witness for C1: a stationary bullet 500 px away from the agent fails the
miss-distance condition and leaves the accumulator unchanged. -/
theorem c1_threat_window_witness :
    threatStep botC [] 800 600 (0, 0, 0, 0) bFar = (0, 0, 0, 0) := by
  apply (c1_threat_window botC [] 800 600 bFar (0, 0, 0, 0)).2.1
  have hca : _closest_approach bFar.x bFar.y bFar.vx bFar.vy botC.x botC.y =
      (0, hypot (0 - 400) (0 - 300)) := by
    rw [_closest_approach]
    norm_num [bFar, botC]
  have h500 : hypot ((0 : ℝ) - 400) (0 - 300) = 500 :=
    hypot_eq_of_sq (by norm_num) (by norm_num)
  rw [hca]
  simp only [h500]
  norm_num [COLLISION_MARGIN, BOT_RADIUS, BULLET_RADIUS]

/-- Claim C6: before the wall-probe flip, the perpendicular chosen for a threat
is `p_a = (t.y, -t.x)` exactly when the projection onto `p_a` of the vector
from the bullet's position at closest approach `b.pos + b.vel * tca` to the
agent is non-negative, and `p_b = (-t.y, t.x)` otherwise — for every `tca`,
including negative values, because `p_a` is orthogonal to the bullet velocity
so the projection is independent of the time at which it is evaluated. -/
theorem c6_perp_choice (bot : BotState) (b : BulletInfo) (tca : ℝ) :
    chosenPerpPreFlip bot b tca =
      if 0 ≤ (_normalize b.vx b.vy).2 * (bot.x - (b.x + b.vx * tca)) +
             -(_normalize b.vx b.vy).1 * (bot.y - (b.y + b.vy * tca))
      then ((_normalize b.vx b.vy).2, -(_normalize b.vx b.vy).1)
      else (-(_normalize b.vx b.vy).2, (_normalize b.vx b.vy).1) := by
  rcases lt_or_le (hypot b.vx b.vy) 1e-6 with h | h
  · rw [chosenPerpPreFlip, normalize_of_lt h]
    norm_num
  · rw [chosenPerpPreFlip, normalize_of_ge h]
    have hm : hypot b.vx b.vy ≠ 0 := by
      have := hypot_nonneg b.vx b.vy
      intro h0
      rw [h0] at h
      norm_num at h
    have hdot : (b.vy / hypot b.vx b.vy) * (bot.x - (b.x + b.vx * max tca 0)) +
        (-(b.vx / hypot b.vx b.vy)) * (bot.y - (b.y + b.vy * max tca 0)) =
        (b.vy / hypot b.vx b.vy) * (bot.x - (b.x + b.vx * tca)) +
        (-(b.vx / hypot b.vx b.vy)) * (bot.y - (b.y + b.vy * tca)) := by
      field_simp
      ring
    simp only
    rw [hdot]

theorem closest_approach_of_ge (bx b_y bvx bvy tx ty : ℝ)
    (h : 1e-6 ≤ bvx * bvx + bvy * bvy) :
    _closest_approach bx b_y bvx bvy tx ty =
      (-((bx - tx) * bvx + (b_y - ty) * bvy) / (bvx * bvx + bvy * bvy),
       hypot
         (bx + bvx * (-((bx - tx) * bvx + (b_y - ty) * bvy) / (bvx * bvx + bvy * bvy)) - tx)
         (b_y + bvy * (-((bx - tx) * bvx + (b_y - ty) * bvy) / (bvx * bvx + bvy * bvy)) - ty)) := by
  simp only [_closest_approach]
  rw [if_neg (not_lt.mpr h)]

theorem closest_approach_of_lt (bx b_y bvx bvy tx ty : ℝ)
    (h : bvx * bvx + bvy * bvy < 1e-6) :
    _closest_approach bx b_y bvx bvy tx ty = (0, hypot (bx - tx) (b_y - ty)) := by
  simp only [_closest_approach]
  rw [if_pos h]

/-- Claim C2: with squared bullet speed at least `1e-6`, `_closest_approach`
returns `tca = -(r . v) / |v|^2` and the miss distance is the distance from the
agent to the point `b.pos + b.vel * tca`, which is the unique minimum-distance
point on the bullet's infinite constant-velocity path; with squared speed below
`1e-6` it returns `tca = 0` and miss distance `|r|`. -/
theorem c2_closest_approach (bx b_y bvx bvy tx ty : ℝ) :
    (1e-6 ≤ bvx * bvx + bvy * bvy →
      (_closest_approach bx b_y bvx bvy tx ty).1 =
        -((bx - tx) * bvx + (b_y - ty) * bvy) / (bvx * bvx + bvy * bvy) ∧
      (_closest_approach bx b_y bvx bvy tx ty).2 =
        hypot (bx + bvx * (_closest_approach bx b_y bvx bvy tx ty).1 - tx)
              (b_y + bvy * (_closest_approach bx b_y bvx bvy tx ty).1 - ty) ∧
      ∀ t : ℝ, t ≠ (_closest_approach bx b_y bvx bvy tx ty).1 →
        (_closest_approach bx b_y bvx bvy tx ty).2 <
          hypot (bx + bvx * t - tx) (b_y + bvy * t - ty)) ∧
    (bvx * bvx + bvy * bvy < 1e-6 →
      _closest_approach bx b_y bvx bvy tx ty = (0, hypot (bx - tx) (b_y - ty))) := by
  refine ⟨fun h => ?_, fun h => closest_approach_of_lt bx b_y bvx bvy tx ty h⟩
  rw [closest_approach_of_ge bx b_y bvx bvy tx ty h]
  dsimp only
  refine ⟨rfl, rfl, ?_⟩
  intro t ht
  have hs : (0 : ℝ) < bvx * bvx + bvy * bvy := lt_of_lt_of_le (by norm_num) h
  have hsne : bvx * bvx + bvy * bvy ≠ 0 := ne_of_gt hs
  have key : (bx + bvx * t - tx) ^ 2 + (b_y + bvy * t - ty) ^ 2 =
      ((bx + bvx * (-((bx - tx) * bvx + (b_y - ty) * bvy) / (bvx * bvx + bvy * bvy)) - tx) ^ 2 +
       (b_y + bvy * (-((bx - tx) * bvx + (b_y - ty) * bvy) / (bvx * bvx + bvy * bvy)) - ty) ^ 2) +
      (bvx * bvx + bvy * bvy) *
        (t - -((bx - tx) * bvx + (b_y - ty) * bvy) / (bvx * bvx + bvy * bvy)) ^ 2 := by
    field_simp
    ring
  have h2 : 0 < (t - -((bx - tx) * bvx + (b_y - ty) * bvy) / (bvx * bvx + bvy * bvy)) ^ 2 := by
    rw [sq]
    exact mul_self_pos.mpr (sub_ne_zero.mpr ht)
  have hlt :
      (bx + bvx * (-((bx - tx) * bvx + (b_y - ty) * bvy) / (bvx * bvx + bvy * bvy)) - tx) ^ 2 +
      (b_y + bvy * (-((bx - tx) * bvx + (b_y - ty) * bvy) / (bvx * bvx + bvy * bvy)) - ty) ^ 2 <
      (bx + bvx * t - tx) ^ 2 + (b_y + bvy * t - ty) ^ 2 := by
    have hpos := mul_pos hs h2
    linarith [key]
  rw [hypot, hypot]
  exact Real.sqrt_lt_sqrt (by positivity) hlt

/-- Witness for C2: bullet at `(3, 4)` moving `(0, -1)` toward the origin has
`tca = 4`, miss distance `3`, and any other time (here `t = 5`) gives a
strictly larger distance. -/
theorem c2_closest_approach_witness :
    (_closest_approach 3 4 0 (-1) 0 0).1 = 4 ∧
    (_closest_approach 3 4 0 (-1) 0 0).2 = 3 ∧
    (_closest_approach 3 4 0 (-1) 0 0).2 < hypot (3 + 0 * 5 - 0) (4 + (-1) * 5 - 0) := by
  have h := (c2_closest_approach 3 4 0 (-1) 0 0).1 (by norm_num)
  have htca : (_closest_approach 3 4 0 (-1) 0 0).1 = 4 := by
    rw [h.1]
    norm_num
  refine ⟨htca, ?_, h.2.2 5 (by rw [htca]; norm_num)⟩
  rw [h.2.1, htca]
  have h30 : hypot (3 + 0 * 4 - 0 : ℝ) (4 + (-1) * 4 - 0) = 3 :=
    hypot_eq_of_sq (by norm_num) (by norm_num)
  exact h30

theorem normalize_mag (dx dy : ℝ) :
    _normalize dx dy = (0, 0) ∨
      hypot (_normalize dx dy).1 (_normalize dx dy).2 = 1 := by
  rcases lt_or_le (hypot dx dy) 1e-6 with h | h
  · exact Or.inl (normalize_of_lt h)
  · right
    rw [normalize_of_ge h]
    dsimp only
    have hm : (0 : ℝ) < hypot dx dy := lt_of_lt_of_le (by norm_num) h
    have hne : hypot dx dy ≠ 0 := ne_of_gt hm
    have h1 : (dx / hypot dx dy) ^ 2 + (dy / hypot dx dy) ^ 2 = 1 := by
      field_simp
      linarith [sq_hypot dx dy]
    rw [hypot, h1, Real.sqrt_one]

theorem hypot_mul_right (a b s : ℝ) (hs : 0 ≤ s) :
    hypot (a * s) (b * s) = hypot a b * s := by
  rw [hypot, hypot, show (a * s) ^ 2 + (b * s) ^ 2 = (a ^ 2 + b ^ 2) * s ^ 2 by ring,
    Real.sqrt_mul (by positivity) (s ^ 2), Real.sqrt_sq hs]

theorem outputDir_mag (bot : BotState) (walls : List WallRect) (arena_w arena_h : ℝ)
    (d : ℝ × ℝ) :
    outputDir bot walls arena_w arena_h d = (0, 0) ∨
      hypot (outputDir bot walls arena_w arena_h d).1
            (outputDir bot walls arena_w arena_h d).2 = 1 := by
  simp only [outputDir]
  exact normalize_mag _ _

/-- Claim C10: for non-negative `bot_speed`, the velocity returned by
`process_reflex` is either exactly `(0, 0)` or has Euclidean norm exactly
`bot_speed`, because the final direction passes through `_normalize`. -/
theorem c10_speed_invariant (bot : BotState) (player_bullets : List BulletInfo)
    (walls : List WallRect) (bot_speed arena_w arena_h dt : ℝ) (h : 0 ≤ bot_speed) :
    ((process_reflex bot player_bullets walls bot_speed arena_w arena_h dt).1 = 0 ∧
     (process_reflex bot player_bullets walls bot_speed arena_w arena_h dt).2.1 = 0) ∨
    hypot (process_reflex bot player_bullets walls bot_speed arena_w arena_h dt).1
          (process_reflex bot player_bullets walls bot_speed arena_w arena_h dt).2.1 =
      bot_speed := by
  rcases outputDir_mag bot walls arena_w arena_h
      (preRepulsionDir bot player_bullets walls arena_w arena_h) with h0 | h1
  · left
    simp only [process_reflex]
    rw [h0]
    norm_num
  · right
    simp only [process_reflex]
    rw [hypot_mul_right _ _ _ h, h1, one_mul]

/-- Witness for C10: with the sample centre agent, no bullets and no walls, the
invariant holds at speed `5`. -/
theorem c10_speed_invariant_witness :
    (0 : ℝ) ≤ 5 ∧
    (((process_reflex botC [] [] 5 800 600 (1 / 60)).1 = 0 ∧
      (process_reflex botC [] [] 5 800 600 (1 / 60)).2.1 = 0) ∨
     hypot (process_reflex botC [] [] 5 800 600 (1 / 60)).1
           (process_reflex botC [] [] 5 800 600 (1 / 60)).2.1 = 5) :=
  ⟨by norm_num, c10_speed_invariant botC [] [] 5 800 600 (1 / 60) (by norm_num)⟩

theorem normalize_fst_nonneg {dx dy : ℝ} (h : 0 ≤ dx) : 0 ≤ (_normalize dx dy).1 := by
  rw [_normalize]
  split_ifs
  · norm_num
  · exact div_nonneg h (hypot_nonneg dx dy)

theorem normalize_fst_nonpos {dx dy : ℝ} (h : dx ≤ 0) : (_normalize dx dy).1 ≤ 0 := by
  rw [_normalize]
  split_ifs
  · norm_num
  · exact div_nonpos_iff.mpr (Or.inr ⟨h, hypot_nonneg dx dy⟩)

theorem normalize_snd_nonneg {dx dy : ℝ} (h : 0 ≤ dy) : 0 ≤ (_normalize dx dy).2 := by
  rw [_normalize]
  split_ifs
  · norm_num
  · exact div_nonneg h (hypot_nonneg dx dy)

theorem normalize_snd_nonpos {dx dy : ℝ} (h : dy ≤ 0) : (_normalize dx dy).2 ≤ 0 := by
  rw [_normalize]
  split_ifs
  · norm_num
  · exact div_nonpos_iff.mpr (Or.inr ⟨h, hypot_nonneg dx dy⟩)

theorem outputDir_fst_nonneg (bot : BotState) (walls : List WallRect) (arena_w arena_h : ℝ)
    (d : ℝ × ℝ) (hx : bot.x < WALL_BUFFER) :
    0 ≤ (outputDir bot walls arena_w arena_h d).1 := by
  simp only [outputDir]
  apply normalize_fst_nonneg
  set d1 := d.1 + (_wall_repulsion bot.x bot.y walls arena_w arena_h).1 * 0.5 with hd1
  by_cases hneg : d1 < 0
  · rw [if_pos (show bot.x < WALL_BUFFER ∧ d1 < 0 from ⟨hx, hneg⟩)]
    rw [if_neg (show ¬(arena_w - WALL_BUFFER < bot.x ∧ (0 : ℝ) < 0) from
      fun hc => lt_irrefl 0 hc.2)]
  · rw [if_neg (show ¬(bot.x < WALL_BUFFER ∧ d1 < 0) from fun hc => hneg hc.2)]
    by_cases h2 : arena_w - WALL_BUFFER < bot.x ∧ 0 < d1
    · rw [if_pos h2]
    · rw [if_neg h2]
      exact not_lt.mp hneg

theorem outputDir_fst_nonpos (bot : BotState) (walls : List WallRect) (arena_w arena_h : ℝ)
    (d : ℝ × ℝ) (hx : arena_w - WALL_BUFFER < bot.x) :
    (outputDir bot walls arena_w arena_h d).1 ≤ 0 := by
  simp only [outputDir]
  apply normalize_fst_nonpos
  set d1 := d.1 + (_wall_repulsion bot.x bot.y walls arena_w arena_h).1 * 0.5 with hd1
  by_cases hneg : bot.x < WALL_BUFFER ∧ d1 < 0
  · rw [if_pos hneg]
    rw [if_neg (show ¬(arena_w - WALL_BUFFER < bot.x ∧ (0 : ℝ) < 0) from
      fun hc => lt_irrefl 0 hc.2)]
  · rw [if_neg hneg]
    by_cases hpos : 0 < d1
    · rw [if_pos (show arena_w - WALL_BUFFER < bot.x ∧ 0 < d1 from ⟨hx, hpos⟩)]
    · rw [if_neg (show ¬(arena_w - WALL_BUFFER < bot.x ∧ 0 < d1) from fun hc => hpos hc.2)]
      exact not_lt.mp hpos

theorem outputDir_snd_nonneg (bot : BotState) (walls : List WallRect) (arena_w arena_h : ℝ)
    (d : ℝ × ℝ) (hy : bot.y < WALL_BUFFER) :
    0 ≤ (outputDir bot walls arena_w arena_h d).2 := by
  simp only [outputDir]
  apply normalize_snd_nonneg
  set d2 := d.2 + (_wall_repulsion bot.x bot.y walls arena_w arena_h).2 * 0.5 with hd2
  by_cases hneg : d2 < 0
  · rw [if_pos (show bot.y < WALL_BUFFER ∧ d2 < 0 from ⟨hy, hneg⟩)]
    rw [if_neg (show ¬(arena_h - WALL_BUFFER < bot.y ∧ (0 : ℝ) < 0) from
      fun hc => lt_irrefl 0 hc.2)]
  · rw [if_neg (show ¬(bot.y < WALL_BUFFER ∧ d2 < 0) from fun hc => hneg hc.2)]
    by_cases h2 : arena_h - WALL_BUFFER < bot.y ∧ 0 < d2
    · rw [if_pos h2]
    · rw [if_neg h2]
      exact not_lt.mp hneg

theorem outputDir_snd_nonpos (bot : BotState) (walls : List WallRect) (arena_w arena_h : ℝ)
    (d : ℝ × ℝ) (hy : arena_h - WALL_BUFFER < bot.y) :
    (outputDir bot walls arena_w arena_h d).2 ≤ 0 := by
  simp only [outputDir]
  apply normalize_snd_nonpos
  set d2 := d.2 + (_wall_repulsion bot.x bot.y walls arena_w arena_h).2 * 0.5 with hd2
  by_cases hneg : bot.y < WALL_BUFFER ∧ d2 < 0
  · rw [if_pos hneg]
    rw [if_neg (show ¬(arena_h - WALL_BUFFER < bot.y ∧ (0 : ℝ) < 0) from
      fun hc => lt_irrefl 0 hc.2)]
  · rw [if_neg hneg]
    by_cases hpos : 0 < d2
    · rw [if_pos (show arena_h - WALL_BUFFER < bot.y ∧ 0 < d2 from ⟨hy, hpos⟩)]
    · rw [if_neg (show ¬(arena_h - WALL_BUFFER < bot.y ∧ 0 < d2) from fun hc => hpos hc.2)]
      exact not_lt.mp hpos

/-- Counterexample to C5 as stated: with a negative `bot_speed` (which the
claim quantifies over, since it covers every input), an agent halfway inside
the west wall buffer with eastward intent gets a strictly negative `vx`. -/
theorem c5_west_clamp_counterexample :
    botWestE.x < WALL_BUFFER ∧
    (process_reflex botWestE [] [] (-1) 800 600 (1 / 60)).1 < 0 := by
  have hpre : preRepulsionDir botWestE [] [] 800 600 = (1, 0) := by
    simp only [preRepulsionDir, threatAccum, List.foldl_nil]
    norm_num [botWestE]
  have hwr : _wall_repulsion botWestE.x botWestE.y [] 800 600 = (0.9, 0) := by
    simp only [_wall_repulsion, List.foldl_nil]
    rw [show botWestE.x = (19 : ℝ) from rfl, show botWestE.y = (300 : ℝ) from rfl]
    rw [edgeRepulse, edgeRepulse, edgeRepulse, edgeRepulse]
    norm_num [WALL_BUFFER, WALL_REPULSE_STRENGTH]
  have h145 : hypot (1.45 : ℝ) 0 = 1.45 := hypot_eq_of_sq (by norm_num) (by norm_num)
  have hnorm : _normalize (1.45 : ℝ) 0 = (1, 0) := by
    rw [normalize_of_ge (by rw [h145]; norm_num), h145]
    norm_num
  have hout : outputDir botWestE [] 800 600 (1, 0) = (1, 0) := by
    simp only [outputDir]
    rw [hwr]
    dsimp only
    rw [show (1 : ℝ) + 0.9 * 0.5 = 1.45 by norm_num, show (0 : ℝ) + 0 * 0.5 = 0 by norm_num]
    rw [if_neg (fun hc : _ ∧ (1.45 : ℝ) < 0 => by norm_num at hc)]
    rw [if_neg (fun hc : (800 : ℝ) - WALL_BUFFER < botWestE.x ∧ _ => by
      norm_num [botWestE, WALL_BUFFER] at hc)]
    rw [if_neg (fun hc : botWestE.y < WALL_BUFFER ∧ _ => by
      norm_num [botWestE, WALL_BUFFER] at hc)]
    rw [if_neg (fun hc : (600 : ℝ) - WALL_BUFFER < botWestE.y ∧ _ => by
      norm_num [botWestE, WALL_BUFFER] at hc)]
    exact hnorm
  constructor
  · norm_num [botWestE, WALL_BUFFER]
  · simp only [process_reflex]
    rw [hpre, hout]
    norm_num

/-- Claim C5, amended only by assuming a non-negative `bot_speed`: whenever the
agent is within `WALL_BUFFER` of an arena edge, the returned velocity component
pointing further into that edge is zero or directed away from it, for every
bullet and wall configuration — west edge: `vx ≥ 0`; east edge: `vx ≤ 0`;
north (top) edge: `vy ≥ 0`; south (bottom) edge: `vy ≤ 0`. -/
theorem c5_perimeter_clamp (bot : BotState) (player_bullets : List BulletInfo)
    (walls : List WallRect) (bot_speed arena_w arena_h dt : ℝ) (hs : 0 ≤ bot_speed) :
    (bot.x < WALL_BUFFER →
      0 ≤ (process_reflex bot player_bullets walls bot_speed arena_w arena_h dt).1) ∧
    (arena_w - WALL_BUFFER < bot.x →
      (process_reflex bot player_bullets walls bot_speed arena_w arena_h dt).1 ≤ 0) ∧
    (bot.y < WALL_BUFFER →
      0 ≤ (process_reflex bot player_bullets walls bot_speed arena_w arena_h dt).2.1) ∧
    (arena_h - WALL_BUFFER < bot.y →
      (process_reflex bot player_bullets walls bot_speed arena_w arena_h dt).2.1 ≤ 0) := by
  refine ⟨fun hx => ?_, fun hx => ?_, fun hy => ?_, fun hy => ?_⟩
  · simp only [process_reflex]
    exact mul_nonneg (outputDir_fst_nonneg bot walls arena_w arena_h
      (preRepulsionDir bot player_bullets walls arena_w arena_h) hx) hs
  · simp only [process_reflex]
    exact mul_nonpos_iff.mpr (Or.inr ⟨outputDir_fst_nonpos bot walls arena_w arena_h
      (preRepulsionDir bot player_bullets walls arena_w arena_h) hx, hs⟩)
  · simp only [process_reflex]
    exact mul_nonneg (outputDir_snd_nonneg bot walls arena_w arena_h
      (preRepulsionDir bot player_bullets walls arena_w arena_h) hy) hs
  · simp only [process_reflex]
    exact mul_nonpos_iff.mpr (Or.inr ⟨outputDir_snd_nonpos bot walls arena_w arena_h
      (preRepulsionDir bot player_bullets walls arena_w arena_h) hy, hs⟩)

/-- Witness for the amended C5: the agent exactly `WALL_BUFFER / 2` from the
west edge with westward intent gets `vx` clamped to zero or positive. -/
theorem c5_perimeter_clamp_witness :
    (0 : ℝ) ≤ 5 ∧ botWestW.x < WALL_BUFFER ∧
    0 ≤ (process_reflex botWestW [] [] 5 800 600 (1 / 60)).1 :=
  ⟨by norm_num, by norm_num [botWestW, WALL_BUFFER],
   (c5_perimeter_clamp botWestW [] [] 5 800 600 (1 / 60) (by norm_num)).1
     (by norm_num [botWestW, WALL_BUFFER])⟩

theorem wallRepulseFold_far (bx bY : ℝ) :
    ∀ walls : List WallRect,
      (∀ wall ∈ walls,
        WALL_BUFFER ≤ hypot (bx - max wall.x (min (wall.x + wall.w) bx))
                            (bY - max wall.y (min (wall.y + wall.h) bY))) →
      ∀ acc : ℝ × ℝ, walls.foldl (wallRepulseStep bx bY) acc = acc := by
  intro walls
  induction walls with
  | nil => intro _ acc; rfl
  | cons wall rest ih =>
    intro hw acc
    rw [List.foldl_cons]
    have hstep : wallRepulseStep bx bY acc wall = acc := by
      simp only [wallRepulseStep]
      rw [if_neg]
      rintro ⟨hc, -⟩
      exact absurd hc (not_lt.mpr (hw wall (List.mem_cons_self _ _)))
    rw [hstep]
    exact ih (fun w hwm => hw w (List.mem_cons_of_mem _ hwm)) acc

theorem wall_repulsion_far (bx bY arena_w arena_h : ℝ) (walls : List WallRect)
    (h1 : WALL_BUFFER ≤ bx) (h2 : WALL_BUFFER ≤ arena_w - bx)
    (h3 : WALL_BUFFER ≤ bY) (h4 : WALL_BUFFER ≤ arena_h - bY)
    (hw : ∀ wall ∈ walls,
      WALL_BUFFER ≤ hypot (bx - max wall.x (min (wall.x + wall.w) bx))
                          (bY - max wall.y (min (wall.y + wall.h) bY))) :
    _wall_repulsion bx bY walls arena_w arena_h = (0, 0) := by
  simp only [_wall_repulsion]
  rw [wallRepulseFold_far bx bY walls hw]
  have e1 : edgeRepulse bx 1 0 = (0, 0) := by
    rw [edgeRepulse, if_neg (not_lt.mpr h1)]
  have e2 : edgeRepulse (arena_w - bx) (-1) 0 = (0, 0) := by
    rw [edgeRepulse, if_neg (not_lt.mpr h2)]
  have e3 : edgeRepulse bY 0 1 = (0, 0) := by
    rw [edgeRepulse, if_neg (not_lt.mpr h3)]
  have e4 : edgeRepulse (arena_h - bY) 0 (-1) = (0, 0) := by
    rw [edgeRepulse, if_neg (not_lt.mpr h4)]
  rw [e1, e2, e3, e4]
  norm_num

/-- Claim C4: with an empty bullet list the pre-repulsion direction is the
strategic intent unmodified, and if additionally the agent is at least
`WALL_BUFFER` from every arena edge and every obstacle, the returned velocity
is exactly `_normalize intent * bot_speed`. -/
theorem c4_empty_bullets (bot : BotState) (walls : List WallRect)
    (bot_speed arena_w arena_h dt : ℝ) :
    preRepulsionDir bot [] walls arena_w arena_h = (bot.intent_dx, bot.intent_dy) ∧
    (WALL_BUFFER ≤ bot.x → WALL_BUFFER ≤ arena_w - bot.x →
     WALL_BUFFER ≤ bot.y → WALL_BUFFER ≤ arena_h - bot.y →
     (∀ wall ∈ walls,
       WALL_BUFFER ≤ hypot (bot.x - max wall.x (min (wall.x + wall.w) bot.x))
                           (bot.y - max wall.y (min (wall.y + wall.h) bot.y))) →
     process_reflex bot [] walls bot_speed arena_w arena_h dt =
       ((_normalize bot.intent_dx bot.intent_dy).1 * bot_speed,
        (_normalize bot.intent_dx bot.intent_dy).2 * bot_speed,
        bot.shoot_intent)) := by
  have hpre : preRepulsionDir bot [] walls arena_w arena_h =
      (bot.intent_dx, bot.intent_dy) := rfl
  refine ⟨hpre, fun h1 h2 h3 h4 hw => ?_⟩
  have hwr := wall_repulsion_far bot.x bot.y arena_w arena_h walls h1 h2 h3 h4 hw
  simp only [process_reflex, outputDir]
  rw [hpre, hwr]
  dsimp only
  rw [if_neg (fun hc : bot.x < WALL_BUFFER ∧ _ => absurd hc.1 (not_lt.mpr h1))]
  rw [if_neg (fun hc : arena_w - WALL_BUFFER < bot.x ∧ _ =>
    absurd hc.1 (not_lt.mpr (by linarith)))]
  rw [if_neg (fun hc : bot.y < WALL_BUFFER ∧ _ => absurd hc.1 (not_lt.mpr h3))]
  rw [if_neg (fun hc : arena_h - WALL_BUFFER < bot.y ∧ _ =>
    absurd hc.1 (not_lt.mpr (by linarith)))]
  norm_num

/-- Witness for C4: the sample centre agent with eastward intent, no bullets
and no walls moves due east at exactly `bot_speed = 5`. -/
theorem c4_empty_bullets_witness :
    process_reflex botC [] [] 5 800 600 (1 / 60) = (5, 0, false) := by
  have h := (c4_empty_bullets botC [] 5 800 600 (1 / 60)).2
    (by norm_num [botC, WALL_BUFFER]) (by norm_num [botC, WALL_BUFFER])
    (by norm_num [botC, WALL_BUFFER]) (by norm_num [botC, WALL_BUFFER])
    (by intro w hwm; exact absurd hwm (List.not_mem_nil w))
  rw [h]
  have h1 : hypot (1 : ℝ) 0 = 1 := hypot_eq_of_sq (by norm_num) (by norm_num)
  have hn : _normalize (1 : ℝ) 0 = (1, 0) := by
    rw [normalize_of_ge (by rw [h1]; norm_num), h1]
    norm_num
  rw [show botC.intent_dx = (1 : ℝ) from rfl, show botC.intent_dy = (0 : ℝ) from rfl, hn]
  norm_num [botC]

/-- Claim C3: when at least one threat is found, each admitted bullet
contributes `chosenPerp * urgency` with
`urgency = (DODGE_BASE_STRENGTH / max tca 0.03) * (0.4 + 0.6 * max 0 (1 - miss / COLLISION_MARGIN))`,
and the pre-repulsion direction is
`normalize(dodge) * (1 - blend) + intent * blend` with
`blend = INTENT_BLEND * (1 - 0.7 * min (maxUrgency / DODGE_BASE_STRENGTH) 1)`. -/
theorem c3_urgency_blend (bot : BotState) (player_bullets : List BulletInfo)
    (walls : List WallRect) (arena_w arena_h : ℝ)
    (h : 0 < (threatAccum bot player_bullets walls arena_w arena_h).2.2.1) :
    (preRepulsionDir bot player_bullets walls arena_w arena_h =
      ((_normalize (threatAccum bot player_bullets walls arena_w arena_h).1
          (threatAccum bot player_bullets walls arena_w arena_h).2.1).1 *
         (1 - INTENT_BLEND * (1 - 0.7 *
            min ((threatAccum bot player_bullets walls arena_w arena_h).2.2.2 /
              DODGE_BASE_STRENGTH) 1)) +
       bot.intent_dx * (INTENT_BLEND * (1 - 0.7 *
          min ((threatAccum bot player_bullets walls arena_w arena_h).2.2.2 /
            DODGE_BASE_STRENGTH) 1)),
       (_normalize (threatAccum bot player_bullets walls arena_w arena_h).1
          (threatAccum bot player_bullets walls arena_w arena_h).2.1).2 *
         (1 - INTENT_BLEND * (1 - 0.7 *
            min ((threatAccum bot player_bullets walls arena_w arena_h).2.2.2 /
              DODGE_BASE_STRENGTH) 1)) +
       bot.intent_dy * (INTENT_BLEND * (1 - 0.7 *
          min ((threatAccum bot player_bullets walls arena_w arena_h).2.2.2 /
            DODGE_BASE_STRENGTH) 1)))) ∧
    (∀ (b : BulletInfo) (c : ℝ × ℝ × ℝ) (acc : ℝ × ℝ × ℕ × ℝ),
      bulletContribution bot walls arena_w arena_h b = some c →
      threatStep bot walls arena_w arena_h acc b =
        (acc.1 + c.1 * c.2.2, acc.2.1 + c.2.1 * c.2.2, acc.2.2.1 + 1, max acc.2.2.2 c.2.2) ∧
      c.2.2 = DODGE_BASE_STRENGTH /
          max (_closest_approach b.x b.y b.vx b.vy bot.x bot.y).1 0.03 *
        (0.4 + 0.6 * max 0
          (1 - (_closest_approach b.x b.y b.vx b.vy bot.x bot.y).2 / COLLISION_MARGIN))) := by
  constructor
  · simp only [preRepulsionDir]
    rw [if_pos h]
    simp only [Prod.mk.injEq]
    constructor <;> ring
  · intro b c acc hc
    refine ⟨by rw [threatStep, hc], ?_⟩
    simp only [bulletContribution] at hc
    split_ifs at hc with h1 h2 h3
    · rw [Option.some.injEq] at hc
      rw [← hc]
    · rw [Option.some.injEq] at hc
      rw [← hc]

/-- Witness for C3: a bullet approaching the sample centre agent from the west
with closest approach in exactly one second and miss distance zero is a threat
(`threat_count = 1`), and its urgency evaluates through the claimed formula. -/
theorem c3_urgency_blend_witness :
    0 < (threatAccum botC [bThreat] [] 800 600).2.2.1 ∧
    ((0 : ℝ), (-1 : ℝ), (3.5 : ℝ)).2.2 =
      DODGE_BASE_STRENGTH /
          max (_closest_approach bThreat.x bThreat.y bThreat.vx bThreat.vy botC.x botC.y).1
            0.03 *
        (0.4 + 0.6 * max 0
          (1 - (_closest_approach bThreat.x bThreat.y bThreat.vx bThreat.vy botC.x botC.y).2 /
            COLLISION_MARGIN)) := by
  have hca : _closest_approach bThreat.x bThreat.y bThreat.vx bThreat.vy botC.x botC.y =
      (1, 0) := by
    rw [show bThreat.x = (300 : ℝ) from rfl, show bThreat.y = (300 : ℝ) from rfl,
      show bThreat.vx = (100 : ℝ) from rfl, show bThreat.vy = (0 : ℝ) from rfl,
      show botC.x = (400 : ℝ) from rfl, show botC.y = (300 : ℝ) from rfl]
    rw [closest_approach_of_ge _ _ _ _ _ _ (by norm_num)]
    norm_num [hypot]
  have hh100 : hypot (100 : ℝ) 0 = 100 := hypot_eq_of_sq (by norm_num) (by norm_num)
  have hn100 : _normalize (100 : ℝ) 0 = (1, 0) := by
    rw [normalize_of_ge (by rw [hh100]; norm_num), hh100]
    norm_num
  have hchosen : chosenPerpPreFlip botC bThreat 1 = (0, -1) := by
    simp only [chosenPerpPreFlip]
    rw [show bThreat.vx = (100 : ℝ) from rfl, show bThreat.vy = (0 : ℝ) from rfl, hn100]
    dsimp only
    rw [if_pos (show (0 : ℝ) ≤ 0 * (botC.x - (bThreat.x + 100 * max 1 0)) +
        -1 * (botC.y - (bThreat.y + 0 * max 1 0)) by
      norm_num [botC, bThreat])]
  have hwr0 : _wall_repulsion (botC.x + 0 * 30) (botC.y + -1 * 30) [] 800 600 = (0, 0) := by
    apply wall_repulsion_far
    · norm_num [botC, WALL_BUFFER]
    · norm_num [botC, WALL_BUFFER]
    · norm_num [botC, WALL_BUFFER]
    · norm_num [botC, WALL_BUFFER]
    · intro w hwm
      exact absurd hwm (List.not_mem_nil w)
  have hcontrib : bulletContribution botC [] 800 600 bThreat = some (0, -1, 3.5) := by
    simp only [bulletContribution]
    rw [hca]
    dsimp only
    rw [if_neg (show ¬((1 : ℝ) < -0.05 ∨ DANGER_TIME_WINDOW < 1) by
      norm_num [DANGER_TIME_WINDOW])]
    rw [if_neg (show ¬(COLLISION_MARGIN * 2.5 ≤ (0 : ℝ)) by
      norm_num [COLLISION_MARGIN, BOT_RADIUS, BULLET_RADIUS])]
    rw [hchosen]
    dsimp only
    rw [hwr0]
    dsimp only
    rw [if_neg (show ¬((0 : ℝ) * 0 + 0 * -1 < -0.5) by norm_num)]
    norm_num [DODGE_BASE_STRENGTH, COLLISION_MARGIN, BOT_RADIUS, BULLET_RADIUS,
      max_def]
  have hacc : threatAccum botC [bThreat] [] 800 600 = (0, -3.5, 1, 3.5) := by
    simp only [threatAccum, List.foldl_cons, List.foldl_nil]
    rw [threatStep, hcontrib]
    norm_num [max_def]
  have hpos : 0 < (threatAccum botC [bThreat] [] 800 600).2.2.1 := by
    rw [hacc]
    norm_num
  refine ⟨hpos, ?_⟩
  exact ((c3_urgency_blend botC [bThreat] [] 800 600 hpos).2 bThreat (0, -1, 3.5)
    (0, 0, 0, 0) hcontrib).2

theorem foldMin_spec (g : ℝ → WallRect → ℝ) (p : WallRect → Prop) (f : WallRect → ℝ)
    (hg : ∀ (a : ℝ) (x : WallRect), (p x ∧ g a x = min a (f x)) ∨ (¬p x ∧ g a x = a)) :
    ∀ (l : List WallRect) (a : ℝ),
      l.foldl g a ≤ a ∧
      (∀ x ∈ l, p x → l.foldl g a ≤ f x) ∧
      (l.foldl g a = a ∨ ∃ x ∈ l, p x ∧ l.foldl g a = f x) := by
  intro l
  induction l with
  | nil =>
    intro a
    refine ⟨le_refl a, ?_, Or.inl rfl⟩
    intro x hx
    exact absurd hx (List.not_mem_nil x)
  | cons y rest ih =>
    intro a
    simp only [List.foldl_cons]
    obtain ⟨h1, h2, h3⟩ := ih (g a y)
    rcases hg a y with ⟨hpy, hstep⟩ | ⟨hpy, hstep⟩
    · refine ⟨le_trans h1 (by rw [hstep]; exact min_le_left a (f y)), ?_, ?_⟩
      · intro x hx hpx
        rcases List.mem_cons.mp hx with heq | hx'
        · subst heq
          exact le_trans h1 (by rw [hstep]; exact min_le_right a (f x))
        · exact h2 x hx' hpx
      · rcases h3 with hval | ⟨x, hx, hpx, hval⟩
        · rcases min_cases a (f y) with ⟨hm, -⟩ | ⟨hm, -⟩
          · exact Or.inl (by rw [hval, hstep, hm])
          · exact Or.inr ⟨y, List.mem_cons_self y rest, hpy, by rw [hval, hstep, hm]⟩
        · exact Or.inr ⟨x, List.mem_cons_of_mem y hx, hpx, hval⟩
    · refine ⟨le_trans h1 (le_of_eq hstep), ?_, ?_⟩
      · intro x hx hpx
        rcases List.mem_cons.mp hx with heq | hx'
        · subst heq
          exact absurd hpx hpy
        · exact h2 x hx' hpx
      · rcases h3 with hval | ⟨x, hx, hpx, hval⟩
        · exact Or.inl (by rw [hval, hstep])
        · exact Or.inr ⟨x, List.mem_cons_of_mem y hx, hpx, hval⟩

theorem wallDistFold_n (bot : BotState) :
    ∀ (walls : List WallRect) (acc : ℝ × ℝ × ℝ × ℝ),
      (walls.foldl (wallDistStep bot) acc).1 =
        walls.foldl (fun a wall =>
          if wall.y + wall.h ≤ bot.y ∧ wall.x ≤ bot.x ∧ bot.x ≤ wall.x + wall.w
          then min a (bot.y - (wall.y + wall.h)) else a) acc.1 := by
  intro walls
  induction walls with
  | nil => intro acc; rfl
  | cons wall rest ih =>
    intro acc
    rw [List.foldl_cons, List.foldl_cons, ih]
    rfl

theorem wallDistFold_e (bot : BotState) :
    ∀ (walls : List WallRect) (acc : ℝ × ℝ × ℝ × ℝ),
      (walls.foldl (wallDistStep bot) acc).2.1 =
        walls.foldl (fun a wall =>
          if bot.x ≤ wall.x ∧ wall.y ≤ bot.y ∧ bot.y ≤ wall.y + wall.h
          then min a (wall.x - bot.x) else a) acc.2.1 := by
  intro walls
  induction walls with
  | nil => intro acc; rfl
  | cons wall rest ih =>
    intro acc
    rw [List.foldl_cons, List.foldl_cons, ih]
    rfl

theorem wallDistFold_s (bot : BotState) :
    ∀ (walls : List WallRect) (acc : ℝ × ℝ × ℝ × ℝ),
      (walls.foldl (wallDistStep bot) acc).2.2.1 =
        walls.foldl (fun a wall =>
          if bot.y ≤ wall.y ∧ wall.x ≤ bot.x ∧ bot.x ≤ wall.x + wall.w
          then min a (wall.y - bot.y) else a) acc.2.2.1 := by
  intro walls
  induction walls with
  | nil => intro acc; rfl
  | cons wall rest ih =>
    intro acc
    rw [List.foldl_cons, List.foldl_cons, ih]
    rfl

theorem wallDistFold_w (bot : BotState) :
    ∀ (walls : List WallRect) (acc : ℝ × ℝ × ℝ × ℝ),
      (walls.foldl (wallDistStep bot) acc).2.2.2 =
        walls.foldl (fun a wall =>
          if wall.x + wall.w ≤ bot.x ∧ wall.y ≤ bot.y ∧ bot.y ≤ wall.y + wall.h
          then min a (bot.x - (wall.x + wall.w)) else a) acc.2.2.2 := by
  intro walls
  induction walls with
  | nil => intro acc; rfl
  | cons wall rest ih =>
    intro acc
    rw [List.foldl_cons, List.foldl_cons, ih]
    rfl

/-- Claim C8: `compute_wall_distances` returns `[north, east, south, west]`
where each entry is the minimum, over the corresponding arena edge and every
obstacle on that side whose perpendicular extent contains the agent's
coordinate (inclusive), of the distance from the agent to that surface;
non-overlapping obstacles are ignored for that direction.  The minimum is
expressed as: a lower bound on the arena-edge candidate, a lower bound on
every qualifying obstacle's distance, and attainment by one candidate. -/
theorem c8_wall_distances (bot : BotState) (walls : List WallRect) (arena_w arena_h : ℝ) :
    ∃ n e s w : ℝ,
      compute_wall_distances bot walls arena_w arena_h = [n, e, s, w] ∧
      (n ≤ bot.y ∧
        (∀ wall ∈ walls,
          wall.y + wall.h ≤ bot.y ∧ wall.x ≤ bot.x ∧ bot.x ≤ wall.x + wall.w →
          n ≤ bot.y - (wall.y + wall.h)) ∧
        (n = bot.y ∨ ∃ wall ∈ walls,
          (wall.y + wall.h ≤ bot.y ∧ wall.x ≤ bot.x ∧ bot.x ≤ wall.x + wall.w) ∧
          n = bot.y - (wall.y + wall.h))) ∧
      (e ≤ arena_w - bot.x ∧
        (∀ wall ∈ walls,
          bot.x ≤ wall.x ∧ wall.y ≤ bot.y ∧ bot.y ≤ wall.y + wall.h →
          e ≤ wall.x - bot.x) ∧
        (e = arena_w - bot.x ∨ ∃ wall ∈ walls,
          (bot.x ≤ wall.x ∧ wall.y ≤ bot.y ∧ bot.y ≤ wall.y + wall.h) ∧
          e = wall.x - bot.x)) ∧
      (s ≤ arena_h - bot.y ∧
        (∀ wall ∈ walls,
          bot.y ≤ wall.y ∧ wall.x ≤ bot.x ∧ bot.x ≤ wall.x + wall.w →
          s ≤ wall.y - bot.y) ∧
        (s = arena_h - bot.y ∨ ∃ wall ∈ walls,
          (bot.y ≤ wall.y ∧ wall.x ≤ bot.x ∧ bot.x ≤ wall.x + wall.w) ∧
          s = wall.y - bot.y)) ∧
      (w ≤ bot.x ∧
        (∀ wall ∈ walls,
          wall.x + wall.w ≤ bot.x ∧ wall.y ≤ bot.y ∧ bot.y ≤ wall.y + wall.h →
          w ≤ bot.x - (wall.x + wall.w)) ∧
        (w = bot.x ∨ ∃ wall ∈ walls,
          (wall.x + wall.w ≤ bot.x ∧ wall.y ≤ bot.y ∧ bot.y ≤ wall.y + wall.h) ∧
          w = bot.x - (wall.x + wall.w))) := by
  refine ⟨(walls.foldl (wallDistStep bot) (bot.y, arena_w - bot.x, arena_h - bot.y, bot.x)).1,
    (walls.foldl (wallDistStep bot) (bot.y, arena_w - bot.x, arena_h - bot.y, bot.x)).2.1,
    (walls.foldl (wallDistStep bot) (bot.y, arena_w - bot.x, arena_h - bot.y, bot.x)).2.2.1,
    (walls.foldl (wallDistStep bot) (bot.y, arena_w - bot.x, arena_h - bot.y, bot.x)).2.2.2,
    rfl, ?_, ?_, ?_, ?_⟩
  · rw [wallDistFold_n]
    exact foldMin_spec _
      (fun wall => wall.y + wall.h ≤ bot.y ∧ wall.x ≤ bot.x ∧ bot.x ≤ wall.x + wall.w)
      (fun wall => bot.y - (wall.y + wall.h))
      (by
        intro a x
        by_cases hpx : x.y + x.h ≤ bot.y ∧ x.x ≤ bot.x ∧ bot.x ≤ x.x + x.w
        · exact Or.inl ⟨hpx, if_pos hpx⟩
        · exact Or.inr ⟨hpx, if_neg hpx⟩) walls bot.y
  · rw [wallDistFold_e]
    exact foldMin_spec _
      (fun wall => bot.x ≤ wall.x ∧ wall.y ≤ bot.y ∧ bot.y ≤ wall.y + wall.h)
      (fun wall => wall.x - bot.x)
      (by
        intro a x
        by_cases hpx : bot.x ≤ x.x ∧ x.y ≤ bot.y ∧ bot.y ≤ x.y + x.h
        · exact Or.inl ⟨hpx, if_pos hpx⟩
        · exact Or.inr ⟨hpx, if_neg hpx⟩) walls (arena_w - bot.x)
  · rw [wallDistFold_s]
    exact foldMin_spec _
      (fun wall => bot.y ≤ wall.y ∧ wall.x ≤ bot.x ∧ bot.x ≤ wall.x + wall.w)
      (fun wall => wall.y - bot.y)
      (by
        intro a x
        by_cases hpx : bot.y ≤ x.y ∧ x.x ≤ bot.x ∧ bot.x ≤ x.x + x.w
        · exact Or.inl ⟨hpx, if_pos hpx⟩
        · exact Or.inr ⟨hpx, if_neg hpx⟩) walls (arena_h - bot.y)
  · rw [wallDistFold_w]
    exact foldMin_spec _
      (fun wall => wall.x + wall.w ≤ bot.x ∧ wall.y ≤ bot.y ∧ bot.y ≤ wall.y + wall.h)
      (fun wall => bot.x - (wall.x + wall.w))
      (by
        intro a x
        by_cases hpx : x.x + x.w ≤ bot.x ∧ x.y ≤ bot.y ∧ bot.y ≤ x.y + x.h
        · exact Or.inl ⟨hpx, if_pos hpx⟩
        · exact Or.inr ⟨hpx, if_neg hpx⟩) walls bot.x

/-- Witness for C8: for the sample centre agent and a single obstacle to its
north, the computed distances are `[150, 400, 300, 400]` and the north bound
from the theorem holds at the obstacle. -/
theorem c8_wall_distances_witness :
    compute_wall_distances botC [wallN] 800 600 = [150, 400, 300, 400] ∧
    (150 : ℝ) ≤ botC.y - (wallN.y + wallN.h) := by
  have heval : compute_wall_distances botC [wallN] 800 600 = [150, 400, 300, 400] := by
    simp only [compute_wall_distances, List.foldl_cons, List.foldl_nil, wallDistStep]
    rw [show wallN.x = (350 : ℝ) from rfl, show wallN.y = (100 : ℝ) from rfl,
      show wallN.w = (100 : ℝ) from rfl, show wallN.h = (50 : ℝ) from rfl,
      show botC.x = (400 : ℝ) from rfl, show botC.y = (300 : ℝ) from rfl]
    norm_num [min_def]
  refine ⟨heval, ?_⟩
  obtain ⟨n, e, s, w, heq, hN, -, -, -⟩ := c8_wall_distances botC [wallN] 800 600
  rw [heval] at heq
  simp only [List.cons.injEq, and_true] at heq
  obtain ⟨h150, -, -, -⟩ := heq
  rw [h150]
  exact hN.2.1 wallN (List.mem_cons_self wallN [])
    (by norm_num [wallN, botC])

end Reflex

end
